import Mathlib

/-!
# Verification of the digni-ride-backend ride/request matching core

A shallow embedding of the ride-matching backend: the Prisma-backed store
becomes an explicit `DB` value (lists of users, rides and ride requests),
each service method of `RideService` (src/modules/rides/ride.service.ts) and
`RequestService` (src/modules/requests/request.service.ts) becomes a Lean
function from `DB` to `Except AppError DB`, and the ride-completion cron
(src/cron/ride-completion.cron.ts) becomes a pure sweep over the ride list.

Record ids are cuid strings generated by the store; they are modelled as
naturals drawn from a per-database counter `nextId`, which captures exactly
the property the store guarantees: freshness.  Coordinates inside the JSON
location blobs are modelled as integers and the PostGIS geodesic metric
(`ST_DWithin` / `ST_Distance` over `geography`) is an abstract distance
function passed as a parameter, since no claim depends on the numeric
analysis of the metric itself, only on the comparison against the 2000 m
radius that the SQL performs.

`AppError(status, message)` from src/middlewares/error.middleware.ts is kept
verbatim as a status/message pair; the spec's taxonomy maps onto it as
NotFound = 404, Forbidden = 403, InvalidState/PreconditionFailed = 400,
Conflict = 409.  An operation that throws leaves the store untouched, which
the embedding renders by returning `.error e` without a successor state;
`applyOp` then keeps the previous state, mirroring a rolled-back / never
started mutation.
-/

namespace DigniRide

/-- The `RideStatus` enum of the Prisma schema. -/
inductive RideStatus where
  | OPEN
  | MATCHED
  | COMPLETED
deriving DecidableEq, Repr

/-- The `RideRequestStatus` enum of the Prisma schema. -/
inductive RideRequestStatus where
  | PENDING
  | ACCEPTED
  | REJECTED
deriving DecidableEq, Repr

/-- A coordinate + address JSON blob (`startLocation` / `endLocation`).
Latitude/longitude are fixed-point integers; the geodesic metric over them
is abstracted (see `getRides`). -/
structure Location where
  lat : Int
  lng : Int
  address : String
deriving DecidableEq, Repr

/-- A `User` row (the fields the core reads). `vehicleNumber` is the nullable
column checked by `createRide`. -/
structure User where
  id : Nat
  phone : String
  name : Option String
  city : Option String
  vehicleNumber : Option String
deriving DecidableEq, Repr

/-- A `Ride` row. -/
structure Ride where
  id : Nat
  riderId : Nat
  passengerId : Option Nat
  startLocation : Location
  endLocation : Location
  departureTime : Int
  note : Option String
  status : RideStatus
deriving DecidableEq, Repr

/-- A `RideRequest` row. -/
structure RideRequest where
  id : Nat
  rideId : Nat
  passengerId : Nat
  note : Option String
  status : RideRequestStatus
deriving DecidableEq, Repr

/-- The persistent store: the three tables the core touches, plus the
store's id generator (`nextId` models cuid freshness). -/
structure DB where
  users : List User
  rides : List Ride
  requests : List RideRequest
  nextId : Nat
deriving DecidableEq, Repr

/-- The `AppError` of src/middlewares/error.middleware.ts: an HTTP status code
plus a message. -/
structure AppError where
  status : Nat
  message : String
deriving DecidableEq, Repr

/-- Embeds `prisma.ride.findUnique({ where: { id } })`. -/
def findRide (db : DB) (rideId : Nat) : Option Ride :=
  db.rides.find? (fun r => decide (r.id = rideId))

/-- Embeds `prisma.rideRequest.findUnique({ where: { id } })`. -/
def findRequest (db : DB) (requestId : Nat) : Option RideRequest :=
  db.requests.find? (fun q => decide (q.id = requestId))

/-- Embeds `prisma.user.findUnique({ where: { id } })`. -/
def findUser (db : DB) (userId : Nat) : Option User :=
  db.users.find? (fun u => decide (u.id = userId))

/-- Embeds `prisma.rideRequest.findUnique({ where: { rideId_passengerId } })` —
lookup through the composite unique key. -/
def findRequestByPair (db : DB) (rideId passengerId : Nat) : Option RideRequest :=
  db.requests.find? (fun q => decide (q.rideId = rideId ∧ q.passengerId = passengerId))

/-- The JS truthiness of the nullable `vehicleNumber` column:
`!user.vehicleNumber` is true when the column is NULL or the empty string. -/
def vehicleMissing : Option String → Bool
  | none => true
  | some v => decide (v = "")

/-- Embeds `RideService.createRide`: requires an existing user with a (truthy)
vehicle number, then inserts an OPEN ride with no passenger. -/
def createRide (riderId : Nat) (startLocation endLocation : Location)
    (departureTime : Int) (note : Option String) (db : DB) : Except AppError DB :=
  match findUser db riderId with
  | none => .error ⟨404, "User not found"⟩
  | some user =>
    if vehicleMissing user.vehicleNumber then
      .error ⟨400, "Vehicle number is required to create a ride"⟩
    else
      .ok { db with
        rides := db.rides ++ [{
          id := db.nextId
          riderId := riderId
          passengerId := none
          startLocation := startLocation
          endLocation := endLocation
          departureTime := departureTime
          note := note
          status := RideStatus.OPEN }]
        nextId := db.nextId + 1 }

/-- Embeds `RequestService.createRequest`: ride must exist and be OPEN, the caller
must not be the ride's own rider, and the (rideId, passengerId) unique slot
must be free; then a PENDING request is inserted. -/
def createRequest (rideId passengerId : Nat) (note : Option String)
    (db : DB) : Except AppError DB :=
  match findRide db rideId with
  | none => .error ⟨404, "Ride not found"⟩
  | some ride =>
    if ride.status ≠ RideStatus.OPEN then
      .error ⟨400, "This ride is not accepting requests"⟩
    else if ride.riderId = passengerId then
      .error ⟨400, "You cannot request your own ride"⟩
    else
      match findRequestByPair db rideId passengerId with
      | some _ => .error ⟨409, "You have already requested this ride"⟩
      | none =>
        .ok { db with
          requests := db.requests ++ [{
            id := db.nextId
            rideId := rideId
            passengerId := passengerId
            note := note
            status := RideRequestStatus.PENDING }]
          nextId := db.nextId + 1 }

/-- The read + precondition phase of `RequestService.acceptRequest`: these
four checks run on the committed store BEFORE `prisma.$transaction` begins,
and on success hand the pre-read request snapshot to the transaction body.
A request whose parent ride is missing cannot occur under the schema's
foreign key; the store would fail internally, rendered as a 500. -/
def acceptPrecheck (requestId riderId : Nat) (db : DB) :
    Except AppError RideRequest :=
  match findRequest db requestId with
  | none => .error ⟨404, "Request not found"⟩
  | some request =>
    match findRide db request.rideId with
    | none => .error ⟨500, "Internal server error"⟩
    | some ride =>
      if ride.riderId ≠ riderId then
        .error ⟨403, "Only the rider can accept requests"⟩
      else if ride.status ≠ RideStatus.OPEN then
        .error ⟨400, "This ride is not accepting requests"⟩
      else if request.status ≠ RideRequestStatus.PENDING then
        .error ⟨400, "This request is no longer pending"⟩
      else
        .ok request

/-- The `prisma.$transaction` body of `RequestService.acceptRequest`,
operating on the snapshot `request` read during the precheck phase:
1. `update` the target request to ACCEPTED;
2. `updateMany` every other still-PENDING request of the same ride to
   REJECTED;
3. `update` the ride to MATCHED with the snapshot's passenger id.
The body performs no re-validation of its own. -/
def acceptCommit (requestId : Nat) (request : RideRequest) (db : DB) : DB :=
  let step1 := db.requests.map (fun q =>
    if q.id = requestId then { q with status := RideRequestStatus.ACCEPTED } else q)
  let step2 := step1.map (fun q =>
    if q.rideId = request.rideId ∧ q.id ≠ requestId ∧
        q.status = RideRequestStatus.PENDING then
      { q with status := RideRequestStatus.REJECTED }
    else q)
  { db with
    requests := step2
    rides := db.rides.map (fun r =>
      if r.id = request.rideId then
        { r with status := RideStatus.MATCHED, passengerId := some request.passengerId }
      else r) }

/-- Embeds `RequestService.acceptRequest` as a single sequential call: precheck on
the committed store, then the transaction body. -/
def acceptRequest (requestId riderId : Nat) (db : DB) : Except AppError DB :=
  (acceptPrecheck requestId riderId db).map (fun request =>
    acceptCommit requestId request db)

/-- Embeds `RequestService.rejectRequest`: caller must be the parent ride's rider
and the request must be PENDING; the parent ride's status is never
inspected.  On success the request row is updated to REJECTED. -/
def rejectRequest (requestId riderId : Nat) (db : DB) : Except AppError DB :=
  match findRequest db requestId with
  | none => .error ⟨404, "Request not found"⟩
  | some request =>
    match findRide db request.rideId with
    | none => .error ⟨500, "Internal server error"⟩
    | some ride =>
      if ride.riderId ≠ riderId then
        .error ⟨403, "Only the rider can reject requests"⟩
      else if request.status ≠ RideRequestStatus.PENDING then
        .error ⟨400, "This request is no longer pending"⟩
      else
        .ok { db with
          requests := db.requests.map (fun q =>
            if q.id = requestId then { q with status := RideRequestStatus.REJECTED }
            else q) }

/-- Embeds `RequestService.cancelRequest`: caller must be the request's passenger
and the request must be PENDING; on success the row is hard-deleted. -/
def cancelRequest (requestId passengerId : Nat) (db : DB) : Except AppError DB :=
  match findRequest db requestId with
  | none => .error ⟨404, "Request not found"⟩
  | some request =>
    if request.passengerId ≠ passengerId then
      .error ⟨403, "You can only cancel your own requests"⟩
    else if request.status ≠ RideRequestStatus.PENDING then
      .error ⟨400, "Only pending requests can be cancelled"⟩
    else
      .ok { db with
        requests := db.requests.filter (fun q => decide (q.id ≠ requestId)) }

/-- Embeds `RideService.completeRide`: caller must be the rider and the ride must
be MATCHED; on success the status becomes COMPLETED. -/
def completeRide (rideId riderId : Nat) (db : DB) : Except AppError DB :=
  match findRide db rideId with
  | none => .error ⟨404, "Ride not found"⟩
  | some ride =>
    if ride.riderId ≠ riderId then
      .error ⟨403, "Only the rider can complete this ride"⟩
    else if ride.status ≠ RideStatus.MATCHED then
      .error ⟨400, "Only matched rides can be completed"⟩
    else
      .ok { db with
        rides := db.rides.map (fun r =>
          if r.id = rideId then { r with status := RideStatus.COMPLETED } else r) }

/-- Embeds `RideService.cancelRide`: caller must be the rider and the ride must be
OPEN; on success the ride row is hard-deleted and its requests
cascade-delete with it (`onDelete: Cascade` on the relation). -/
def cancelRide (rideId riderId : Nat) (db : DB) : Except AppError DB :=
  match findRide db rideId with
  | none => .error ⟨404, "Ride not found"⟩
  | some ride =>
    if ride.riderId ≠ riderId then
      .error ⟨403, "Only the rider can cancel this ride"⟩
    else if ride.status ≠ RideStatus.OPEN then
      .error ⟨400, "Only open rides can be cancelled"⟩
    else
      .ok { db with
        rides := db.rides.filter (fun r => decide (r.id ≠ rideId))
        requests := db.requests.filter (fun q => decide (q.rideId ≠ rideId)) }

/-- Per-ride effect of one tick of `startRideCompletionCron`
(src/cron/ride-completion.cron.ts): the `updateMany` marks a ride COMPLETED
when its departure time is at or before `now` and it is not yet COMPLETED,
touching no other column. -/
def sweepRide (now : Int) (r : Ride) : Ride :=
  if r.departureTime ≤ now ∧ r.status ≠ RideStatus.COMPLETED then
    { r with status := RideStatus.COMPLETED }
  else r

/-- One tick of the ride-completion cron job: the single `updateMany` over
the Ride table. -/
def rideCompletionSweep (now : Int) (db : DB) : DB :=
  { db with rides := db.rides.map (sweepRide now) }

/-- Query parameters of `GET /rides` (`getRidesQuerySchema`).  The proximity
filter is active only when both `lat` and `lng` are supplied, exactly as the
`query.lat !== undefined && query.lng !== undefined` guard requires. -/
structure GetRidesQuery where
  status : Option RideStatus
  lat : Option Int
  lng : Option Int
  departureFrom : Option Int
  departureTo : Option Int
  limit : Option Nat
  offset : Option Nat

/-- Insertion step for the `orderBy: { departureTime: 'asc' }` clause. -/
def insertByDeparture (r : Ride) : List Ride → List Ride
  | [] => [r]
  | x :: xs =>
    if r.departureTime ≤ x.departureTime then r :: x :: xs
    else x :: insertByDeparture r xs

/-- A concrete realisation of the store's `ORDER BY departureTime ASC`. -/
def sortByDeparture : List Ride → List Ride
  | [] => []
  | x :: xs => insertByDeparture x (sortByDeparture xs)

/-- Embeds the geospatial subquery of `RideService.getRides`: the raw
`ST_DWithin(ride.startLocation, point, 2000)` selection over the whole Ride
table, returning the ids of the rides whose start location lies within
2000 m of the supplied point.  `geoDist` is the abstract geodesic
(great-circle) metric computed by PostGIS. -/
def geoRideIds (geoDist : Location → Int × Int → Nat) (lat lng : Int)
    (db : DB) : List Nat :=
  (db.rides.filter (fun s => decide (geoDist s.startLocation (lat, lng) ≤ 2000))).map
    (fun s => s.id)

/-- The `where` predicate assembled by `RideService.getRides`: status
(defaulting to OPEN), `id IN rideIds` when the proximity filter is active,
the departure-time range, and the exclusion of the browsing user's own
rides. -/
def rideMatchesQuery (geoDist : Location → Int × Int → Nat) (q : GetRidesQuery)
    (userId : Option Nat) (db : DB) (r : Ride) : Bool :=
  decide (r.status = q.status.getD RideStatus.OPEN) &&
  (match q.lat, q.lng with
   | some lat, some lng => decide (r.id ∈ geoRideIds geoDist lat lng db)
   | _, _ => true) &&
  (match q.departureFrom with
   | some t => decide (t ≤ r.departureTime)
   | none => true) &&
  (match q.departureTo with
   | some t => decide (r.departureTime ≤ t)
   | none => true) &&
  (match userId with
   | some u => decide (r.riderId ≠ u)
   | none => true)

/-- Embeds `RideService.getRides`: filter, order by departure time
ascending, paginate with `skip`/`take`, and report the matching total.
The per-row `hasRequested` annotation and the included rider/passenger
projections are read-only decoration of each returned row and are not
modelled; the result is the list of returned rides plus the total count. -/
def getRides (geoDist : Location → Int × Int → Nat) (q : GetRidesQuery)
    (userId : Option Nat) (db : DB) : List Ride × Nat :=
  let matched := db.rides.filter (rideMatchesQuery geoDist q userId db)
  (((sortByDeparture matched).drop (q.offset.getD 0)).take (q.limit.getD 20),
   matched.length)

/-! ## Operations as a transition system

For the reachable-state invariant (the passenger-id consistency claim) the
core operations are packaged as an `Op` type; `applyOp` runs one operation,
keeping the previous state when the operation throws (a thrown `AppError`
happens before any mutation, and the accept transaction is all-or-nothing),
and `run` folds a whole history.  The cron tick appears as `Op.sweep` with
the wall-clock instant it fired at. -/

/-- One invocation of a core mutating operation (or one cron tick). -/
inductive Op where
  | createRide (riderId : Nat) (startLocation endLocation : Location)
      (departureTime : Int) (note : Option String)
  | createRequest (rideId passengerId : Nat) (note : Option String)
  | acceptRequest (requestId riderId : Nat)
  | rejectRequest (requestId riderId : Nat)
  | cancelRequest (requestId passengerId : Nat)
  | completeRide (rideId riderId : Nat)
  | cancelRide (rideId riderId : Nat)
  | sweep (now : Int)

/-- Dispatches one operation to its service method. -/
def stepOp : Op → DB → Except AppError DB
  | .createRide a sl el dep note, db => createRide a sl el dep note db
  | .createRequest rid pid note, db => createRequest rid pid note db
  | .acceptRequest qid rid, db => acceptRequest qid rid db
  | .rejectRequest qid rid, db => rejectRequest qid rid db
  | .cancelRequest qid pid, db => cancelRequest qid pid db
  | .completeRide rid uid, db => completeRide rid uid db
  | .cancelRide rid uid, db => cancelRide rid uid db
  | .sweep now, db => .ok (rideCompletionSweep now db)

/-- Runs one operation; a thrown `AppError` leaves the store as it was. -/
def applyOp (db : DB) (op : Op) : DB :=
  match stepOp op db with
  | .ok db' => db'
  | .error _ => db

/-- Runs a history of operations left to right. -/
def run (db : DB) (ops : List Op) : DB :=
  ops.foldl applyOp db

/-- The store at deployment time: a user table (auth is outside the core)
and no rides or requests. -/
def initDB (users : List User) : DB :=
  { users := users, rides := [], requests := [], nextId := 0 }

/-- The ride with id `rideId` is MATCHED in the state reached by `ops`. -/
def MatchedAt (users : List User) (ops : List Op) (rideId : Nat) : Prop :=
  ∃ r ∈ (run (initDB users) ops).rides, r.id = rideId ∧ r.status = RideStatus.MATCHED

/-- The ride with id `rideId` was MATCHED at some point of the history
`ops` (the current state included). -/
def EverMatched (users : List User) (ops : List Op) (rideId : Nat) : Prop :=
  ∃ l₁ l₂, ops = l₁ ++ l₂ ∧ MatchedAt users l₁ rideId

/-- Store well-formedness, guaranteed by the schema: primary keys are
unique, and so is the composite unique key `(rideId, passengerId)` on
RideRequest. -/
def WF (db : DB) : Prop :=
  (db.rides.map Ride.id).Nodup ∧
  (db.requests.map RideRequest.id).Nodup ∧
  (db.requests.map (fun q => (q.rideId, q.passengerId))).Nodup

instance (db : DB) : Decidable (WF db) := by
  unfold WF; infer_instance

/-! ## Lookup lemmas

The store's `findUnique` calls are `List.find?` over a table whose key
column is duplicate-free; these lemmas let a proof replace such a lookup by
the row it must return. -/

/-- A `find?` by key returns the member carrying that key when the key
column is duplicate-free. -/
theorem find_key_of_mem {α β : Type} [DecidableEq β] (f : α → β) :
    ∀ {l : List α}, (l.map f).Nodup → ∀ {a : α}, a ∈ l →
      l.find? (fun x => decide (f x = f a)) = some a := by
  intro l
  induction l with
  | nil => intro _ a ha; cases ha
  | cons b t ih =>
    intro hnd a ha
    rw [List.map_cons, List.nodup_cons] at hnd
    rcases List.mem_cons.mp ha with rfl | hat
    · exact List.find?_cons_of_pos _ (by simp)
    · have hne : f b ≠ f a := fun h => hnd.1 (by rw [h]; exact List.mem_map_of_mem f hat)
      rw [List.find?_cons_of_neg _ (by simp [hne]), ih hnd.2 hat]

/-- A `find?` by key commutes with a row transformation that keeps keys. -/
theorem find_key_map {α β : Type} [DecidableEq β] (f : α → β) (g : α → α)
    (hg : ∀ x, f (g x) = f x) (k : β) :
    ∀ (l : List α), (l.map g).find? (fun x => decide (f x = k)) =
      (l.find? (fun x => decide (f x = k))).map g := by
  intro l
  induction l with
  | nil => rfl
  | cons b t ih =>
    by_cases hb : f b = k
    · rw [List.map_cons, List.find?_cons_of_pos _ (by simp [hg, hb]),
        List.find?_cons_of_pos _ (by simp [hb]), Option.map_some']
    · rw [List.map_cons, List.find?_cons_of_neg _ (by simp [hg, hb]),
        List.find?_cons_of_neg _ (by simp [hb]), ih]

/-- Specialisation of `find_key_of_mem` to the Ride table. -/
theorem findRide_eq_some {db : DB} (hnd : (db.rides.map Ride.id).Nodup)
    {r : Ride} (hr : r ∈ db.rides) : findRide db r.id = some r :=
  find_key_of_mem Ride.id hnd hr

/-- Specialisation of `find_key_of_mem` to the RideRequest table. -/
theorem findRequest_eq_some {db : DB} (hnd : (db.requests.map RideRequest.id).Nodup)
    {q : RideRequest} (hq : q ∈ db.requests) : findRequest db q.id = some q :=
  find_key_of_mem RideRequest.id hnd hq

/-- The composite-unique-key lookup returns the member carrying the pair
when the pair column is duplicate-free. -/
theorem findRequestByPair_eq_some {db : DB}
    (hnd : (db.requests.map (fun q => (q.rideId, q.passengerId))).Nodup)
    {q : RideRequest} (hq : q ∈ db.requests) :
    findRequestByPair db q.rideId q.passengerId = some q := by
  unfold findRequestByPair
  revert hnd hq
  generalize db.requests = l
  induction l with
  | nil => intro _ hq; cases hq
  | cons b t ih =>
    intro hnd hq
    rw [List.map_cons, List.nodup_cons] at hnd
    rcases List.mem_cons.mp hq with rfl | hqt
    · exact List.find?_cons_of_pos _ (by simp)
    · have hne : ¬(b.rideId = q.rideId ∧ b.passengerId = q.passengerId) := by
        intro h
        exact hnd.1 (by
          rw [show (b.rideId, b.passengerId) = (q.rideId, q.passengerId) by
            rw [h.1, h.2]]
          exact List.mem_map_of_mem _ hqt)
      rw [List.find?_cons_of_neg _ (by simp [hne]), ih hnd.2 hqt]

/-! ## The accept operation, characterised -/

/-- The two sequential request updates of the accept transaction fuse into
one pass: the target becomes ACCEPTED, every other PENDING request of the
same ride becomes REJECTED, and every other row is untouched. -/
theorem acceptCommit_requests_eq (requestId : Nat) (request : RideRequest) (db : DB) :
    (acceptCommit requestId request db).requests = db.requests.map (fun p =>
      if p.id = requestId then { p with status := RideRequestStatus.ACCEPTED }
      else if p.rideId = request.rideId ∧ p.status = RideRequestStatus.PENDING then
        { p with status := RideRequestStatus.REJECTED }
      else p) := by
  simp only [acceptCommit, List.map_map]
  refine congrArg (fun f => List.map f db.requests) (funext fun p => ?_)
  by_cases h1 : p.id = requestId
  · simp [Function.comp, h1]
  · by_cases h2 : p.rideId = request.rideId ∧ p.status = RideRequestStatus.PENDING
    · simp [Function.comp, h1, h2]
    · simp only [Function.comp, if_neg h1]
      rw [if_neg, if_neg h2]
      intro h
      exact absurd ⟨h.1, h.2.2⟩ h2

/-- A successful `acceptRequest`: when the target request is PENDING, its
parent ride is OPEN and the caller is the ride's rider, the prechecks pass
and the transaction body runs on the snapshot. -/
theorem acceptRequest_ok {db : DB} {q : RideRequest} {r : Ride}
    (hndq : (db.requests.map RideRequest.id).Nodup)
    (hndr : (db.rides.map Ride.id).Nodup)
    (hq : q ∈ db.requests) (hqs : q.status = RideRequestStatus.PENDING)
    (hr : r ∈ db.rides) (hrid : r.id = q.rideId) (hrs : r.status = RideStatus.OPEN) :
    acceptRequest q.id r.riderId db = .ok (acceptCommit q.id q db) := by
  have h1 : findRequest db q.id = some q := findRequest_eq_some hndq hq
  have h2 : findRide db q.rideId = some r := by
    have h := findRide_eq_some hndr hr
    rwa [hrid] at h
  unfold acceptRequest acceptPrecheck
  rw [h1]
  simp [h2, hrs, hqs, Except.map]

/-- Fieldwise extensionality for the store record. -/
theorem DB_ext {a b : DB} (h1 : a.users = b.users) (h2 : a.rides = b.rides)
    (h3 : a.requests = b.requests) (h4 : a.nextId = b.nextId) : a = b := by
  cases a; cases b
  cases h1; cases h2; cases h3; cases h4
  rfl

/-- A request lookup through a table rewritten by an id-preserving row map. -/
theorem findRequest_requests_map {db db' : DB} (g : RideRequest → RideRequest)
    (hg : ∀ x, (g x).id = x.id) (h : db'.requests = db.requests.map g) (k : Nat) :
    findRequest db' k = (findRequest db k).map g := by
  unfold findRequest
  rw [h]
  exact find_key_map RideRequest.id g hg k db.requests

/-- A ride lookup through a table rewritten by an id-preserving row map. -/
theorem findRide_rides_map {db db' : DB} (g : Ride → Ride)
    (hg : ∀ x, (g x).id = x.id) (h : db'.rides = db.rides.map g) (k : Nat) :
    findRide db' k = (findRide db k).map g := by
  unfold findRide
  rw [h]
  exact find_key_map Ride.id g hg k db.rides

/-- The fused request update of the accept transaction preserves ids. -/
theorem accept_merged_id (q1id q1ride : Nat) (x : RideRequest) :
    ((if x.id = q1id then { x with status := RideRequestStatus.ACCEPTED }
      else if x.rideId = q1ride ∧ x.status = RideRequestStatus.PENDING then
        { x with status := RideRequestStatus.REJECTED }
      else x) : RideRequest).id = x.id := by
  by_cases h1 : x.id = q1id
  · simp [h1]
  · by_cases h2 : x.rideId = q1ride ∧ x.status = RideRequestStatus.PENDING <;>
      simp [h1, h2]

/-- The ride update of the accept transaction preserves ids. -/
theorem accept_ride_update_id (rid pid : Nat) (x : Ride) :
    ((if x.id = rid then
        { x with status := RideStatus.MATCHED, passengerId := some pid }
      else x) : Ride).id = x.id := by
  by_cases h : x.id = rid <;> simp [h]

/-! ## Fixtures for witnesses and counterexamples

One rider (id 10) with a vehicle, their OPEN ride (id 1) and two PENDING
requests from passengers 20 and 21 (request ids 2 and 3). -/

/-- Example rider with a vehicle number. -/
def exUser : User :=
  { id := 10, phone := "9876500000", name := some "R", city := some "Pune",
    vehicleNumber := some "MH12AB1234" }

/-- Example location. -/
def exLoc : Location := { lat := 185200, lng := 738500, address := "Deccan" }

/-- Example OPEN ride owned by user 10. -/
def exRide : Ride :=
  { id := 1, riderId := 10, passengerId := none, startLocation := exLoc,
    endLocation := exLoc, departureTime := 100, note := none,
    status := RideStatus.OPEN }

/-- Example PENDING request by passenger 20 on ride 1. -/
def exQ1 : RideRequest :=
  { id := 2, rideId := 1, passengerId := 20, note := none,
    status := RideRequestStatus.PENDING }

/-- Example PENDING request by passenger 21 on ride 1. -/
def exQ2 : RideRequest :=
  { id := 3, rideId := 1, passengerId := 21, note := none,
    status := RideRequestStatus.PENDING }

/-- Example store holding the rider, the ride and both requests. -/
def exDB : DB :=
  { users := [exUser], rides := [exRide], requests := [exQ1, exQ2], nextId := 4 }

/-- C1: in any well-formed store in which request `q` is PENDING, its parent
ride `r` is OPEN and the caller is `r`'s rider, `acceptRequest` succeeds and
returns exactly the store in which `q` is ACCEPTED, every other request of
`r` that was PENDING (and only those — ACCEPTED or REJECTED rows are
untouched) is REJECTED, `r` is MATCHED with its passenger id set to `q`'s
passenger, and nothing else changed. -/
theorem accept_sets_target_rejects_pending_siblings (db : DB) (q : RideRequest)
    (r : Ride) (hwf : WF db) (hq : q ∈ db.requests)
    (hqs : q.status = RideRequestStatus.PENDING) (hr : r ∈ db.rides)
    (hrid : r.id = q.rideId) (hrs : r.status = RideStatus.OPEN) :
    acceptRequest q.id r.riderId db = .ok
      { db with
        requests := db.requests.map (fun p =>
          if p.id = q.id then { p with status := RideRequestStatus.ACCEPTED }
          else if p.rideId = q.rideId ∧ p.status = RideRequestStatus.PENDING then
            { p with status := RideRequestStatus.REJECTED }
          else p)
        rides := db.rides.map (fun p =>
          if p.id = q.rideId then
            { p with status := RideStatus.MATCHED, passengerId := some q.passengerId }
          else p) } := by
  rw [acceptRequest_ok hwf.2.1 hwf.1 hq hqs hr hrid hrs]
  exact congrArg Except.ok
    (DB_ext rfl rfl (acceptCommit_requests_eq q.id q db) rfl)

/-- Witness for C1 at the fixture store: accepting request 2 marks it
ACCEPTED, rejects request 3, and matches ride 1 with passenger 20. -/
theorem accept_sets_target_rejects_pending_siblings_witness :
    acceptRequest 2 10 exDB = .ok
      { exDB with
        requests := exDB.requests.map (fun p =>
          if p.id = 2 then { p with status := RideRequestStatus.ACCEPTED }
          else if p.rideId = 1 ∧ p.status = RideRequestStatus.PENDING then
            { p with status := RideRequestStatus.REJECTED }
          else p)
        rides := exDB.rides.map (fun p =>
          if p.id = 1 then
            { p with status := RideStatus.MATCHED, passengerId := some 20 }
          else p) } :=
  accept_sets_target_rejects_pending_siblings exDB exQ1 exRide (by decide)
    (by decide) (by decide) (by decide) (by decide) (by decide)

/-- C3: on a well-formed store with an OPEN ride `r` and two PENDING
requests `q1` and `q2` for it, a successful `acceptRequest` on `q1` is
followed by `acceptRequest` on `q2` failing with the InvalidState error
(400, ride not accepting requests) while the accepted request, the rejected
sibling and the matched ride keep the state the first call gave them (the
failing call mutates nothing). -/
theorem second_accept_fails_invalid_state (db : DB) (q1 q2 : RideRequest)
    (r : Ride) (hwf : WF db) (hq1 : q1 ∈ db.requests) (hq2 : q2 ∈ db.requests)
    (hne : q1.id ≠ q2.id) (h1s : q1.status = RideRequestStatus.PENDING)
    (h2s : q2.status = RideRequestStatus.PENDING) (hr : r ∈ db.rides)
    (hrid1 : r.id = q1.rideId) (hrid2 : r.id = q2.rideId)
    (hrs : r.status = RideStatus.OPEN) :
    ∃ db1, acceptRequest q1.id r.riderId db = .ok db1 ∧
      acceptRequest q2.id r.riderId db1 =
        .error ⟨400, "This ride is not accepting requests"⟩ ∧
      applyOp db1 (Op.acceptRequest q2.id r.riderId) = db1 ∧
      findRequest db1 q1.id = some { q1 with status := RideRequestStatus.ACCEPTED } ∧
      findRequest db1 q2.id = some { q2 with status := RideRequestStatus.REJECTED } ∧
      findRide db1 r.id =
        some { r with status := RideStatus.MATCHED
                      passengerId := some q1.passengerId } := by
  have hok := acceptRequest_ok hwf.2.1 hwf.1 hq1 h1s hr hrid1 hrs
  refine ⟨acceptCommit q1.id q1 db, hok, ?_⟩
  have hq21 : q2.rideId = q1.rideId := by rw [← hrid1, ← hrid2]
  have hfr : findRequest (acceptCommit q1.id q1 db) q2.id =
      some { q2 with status := RideRequestStatus.REJECTED } := by
    rw [findRequest_requests_map _ (accept_merged_id q1.id q1.rideId)
      (acceptCommit_requests_eq q1.id q1 db) q2.id,
      findRequest_eq_some hwf.2.1 hq2, Option.map_some']
    have hne' : ¬ q2.id = q1.id := fun h => hne h.symm
    simp [hne', hq21, h2s]
  have hfq1 : findRequest (acceptCommit q1.id q1 db) q1.id =
      some { q1 with status := RideRequestStatus.ACCEPTED } := by
    rw [findRequest_requests_map _ (accept_merged_id q1.id q1.rideId)
      (acceptCommit_requests_eq q1.id q1 db) q1.id,
      findRequest_eq_some hwf.2.1 hq1, Option.map_some']
    simp
  have hfride : findRide (acceptCommit q1.id q1 db) r.id =
      some { r with status := RideStatus.MATCHED
                    passengerId := some q1.passengerId } := by
    rw [findRide_rides_map _ (accept_ride_update_id q1.rideId q1.passengerId)
      rfl r.id, findRide_eq_some hwf.1 hr, Option.map_some']
    simp [hrid1]
  have herr : acceptRequest q2.id r.riderId (acceptCommit q1.id q1 db) =
      .error ⟨400, "This ride is not accepting requests"⟩ := by
    unfold acceptRequest acceptPrecheck
    rw [hfr]
    have : findRide (acceptCommit q1.id q1 db)
        (({ q2 with status := RideRequestStatus.REJECTED } : RideRequest).rideId) =
        some { r with status := RideStatus.MATCHED
                      passengerId := some q1.passengerId } := by
      show findRide (acceptCommit q1.id q1 db) q2.rideId = _
      rw [← hrid2]
      exact hfride
    simp [this, Except.map]
  refine ⟨herr, ?_, hfq1, hfr, hfride⟩
  simp only [applyOp, stepOp, herr]

/-- Witness for C3 at the fixture store: after request 2 is accepted,
accepting request 3 fails with the InvalidState error and changes
nothing. -/
theorem second_accept_fails_invalid_state_witness :
    ∃ db1, acceptRequest 2 10 exDB = .ok db1 ∧
      acceptRequest 3 10 db1 =
        .error ⟨400, "This ride is not accepting requests"⟩ ∧
      applyOp db1 (Op.acceptRequest 3 10) = db1 ∧
      findRequest db1 2 = some { exQ1 with status := RideRequestStatus.ACCEPTED } ∧
      findRequest db1 3 = some { exQ2 with status := RideRequestStatus.REJECTED } ∧
      findRide db1 1 =
        some { exRide with status := RideStatus.MATCHED
                           passengerId := some 20 } :=
  second_accept_fails_invalid_state exDB exQ1 exQ2 exRide (by decide) (by decide)
    (by decide) (by decide) (by decide) (by decide) (by decide) (by decide)
    (by decide) (by decide)

/-- C2 (the code violates it): `acceptRequest` runs its four precondition
checks on the committed store before `prisma.$transaction` begins and the
transaction body re-validates nothing, so two accept calls on distinct
PENDING requests of the same OPEN ride may interleave as precheck₁,
precheck₂, commit₁, commit₂: both calls pass their prechecks against the
same committed snapshot, both transaction bodies then apply, and the final
store carries TWO ACCEPTED requests for the ride — the second call does not
fail with InvalidState and the at-most-one-ACCEPTED postcondition is
violated. -/
theorem concurrent_accepts_both_succeed :
    acceptPrecheck 2 10 exDB = .ok exQ1 ∧
    acceptPrecheck 3 10 exDB = .ok exQ2 ∧
    (acceptCommit 3 exQ2 (acceptCommit 2 exQ1 exDB)).requests.countP
        (fun p => decide (p.status = RideRequestStatus.ACCEPTED)) = 2 ∧
    findRide (acceptCommit 3 exQ2 (acceptCommit 2 exQ1 exDB)) 1 =
      some { exRide with status := RideStatus.MATCHED
                         passengerId := some 21 } :=
  ⟨rfl, rfl, rfl, rfl⟩

/-- Example ride 1 once it has been matched with passenger 20. -/
def exRideM : Ride :=
  { exRide with status := RideStatus.MATCHED, passengerId := some 20 }

/-- Example store in which ride 1 is MATCHED (request 2 accepted, request 3
rejected). -/
def exDBMatched : DB :=
  { users := [exUser]
    rides := [exRideM]
    requests := [{ exQ1 with status := RideRequestStatus.ACCEPTED },
                 { exQ2 with status := RideRequestStatus.REJECTED }]
    nextId := 4 }

/-- Counterexample to C7: on the MATCHED fixture ride, the rider's own
`createRequest` fails with the InvalidState (ride not accepting requests)
error, not the SelfReference (cannot request your own ride) error the claim
names for every status. -/
theorem own_ride_request_matched_counterexample :
    createRequest 1 10 none exDBMatched =
      .error ⟨400, "This ride is not accepting requests"⟩ ∧
    (⟨400, "This ride is not accepting requests"⟩ : AppError) ≠
      ⟨400, "You cannot request your own ride"⟩ :=
  ⟨rfl, by decide⟩

/-- C7 as amended: the status check precedes the self-reference check in
`createRequest`, so the rider's own request fails with the SelfReference
error only on an OPEN ride, and with the InvalidState error on a MATCHED or
COMPLETED ride; in every case the call throws and inserts nothing. -/
theorem own_ride_request_fails_by_status (db : DB) (r : Ride)
    (note : Option String) (hwf : WF db) (hr : r ∈ db.rides) :
    createRequest r.id r.riderId note db =
      .error (if r.status = RideStatus.OPEN then
          ⟨400, "You cannot request your own ride"⟩
        else ⟨400, "This ride is not accepting requests"⟩) ∧
    applyOp db (Op.createRequest r.id r.riderId note) = db := by
  have h := findRide_eq_some hwf.1 hr
  have herr : createRequest r.id r.riderId note db =
      .error (if r.status = RideStatus.OPEN then
          ⟨400, "You cannot request your own ride"⟩
        else ⟨400, "This ride is not accepting requests"⟩) := by
    unfold createRequest
    rw [h]
    by_cases hs : r.status = RideStatus.OPEN
    · simp [hs]
    · simp [hs]
  exact ⟨herr, by simp only [applyOp, stepOp, herr]⟩

/-- Witness for the amended C7 at the MATCHED fixture ride: the rider's own
request fails with the InvalidState error and the store is unchanged. -/
theorem own_ride_request_fails_by_status_witness :
    createRequest exRideM.id exRideM.riderId none exDBMatched =
      .error (if exRideM.status = RideStatus.OPEN then
          ⟨400, "You cannot request your own ride"⟩
        else ⟨400, "This ride is not accepting requests"⟩) ∧
    applyOp exDBMatched (Op.createRequest exRideM.id exRideM.riderId none) =
      exDBMatched :=
  own_ride_request_fails_by_status exDBMatched exRideM none (by decide) (by decide)

/-- C5: one tick of the ride-completion cron rewrites the Ride table
pointwise — a ride whose departure time is at or before `now` and whose
status is not COMPLETED gets status COMPLETED and keeps every other field,
every other ride is returned unchanged — and the users, requests and id
counter are untouched. -/
theorem sweep_completes_due_rides_only (db : DB) (now : Int) (r : Ride) :
    (rideCompletionSweep now db).rides = db.rides.map (sweepRide now) ∧
    (rideCompletionSweep now db).requests = db.requests ∧
    (rideCompletionSweep now db).users = db.users ∧
    (rideCompletionSweep now db).nextId = db.nextId ∧
    (r.departureTime ≤ now ∧ r.status ≠ RideStatus.COMPLETED →
      sweepRide now r = { r with status := RideStatus.COMPLETED }) ∧
    (¬(r.departureTime ≤ now ∧ r.status ≠ RideStatus.COMPLETED) →
      sweepRide now r = r) := by
  refine ⟨rfl, rfl, rfl, rfl, fun h => ?_, fun h => ?_⟩
  · simp [sweepRide, h]
  · simp only [sweepRide, if_neg h]

/-- C9: for a well-formed store and a ride `r` of it, `cancelRide` by the
rider fails with the InvalidState error and leaves the store unchanged when
`r` is MATCHED or COMPLETED, and `completeRide` by the rider fails with the
InvalidState error and leaves the store unchanged when `r` is OPEN. -/
theorem cancel_non_open_and_complete_open_fail (db : DB) (r : Ride)
    (hwf : WF db) (hr : r ∈ db.rides) :
    ((r.status = RideStatus.MATCHED ∨ r.status = RideStatus.COMPLETED) →
      cancelRide r.id r.riderId db =
        .error ⟨400, "Only open rides can be cancelled"⟩ ∧
      applyOp db (Op.cancelRide r.id r.riderId) = db) ∧
    (r.status = RideStatus.OPEN →
      completeRide r.id r.riderId db =
        .error ⟨400, "Only matched rides can be completed"⟩ ∧
      applyOp db (Op.completeRide r.id r.riderId) = db) := by
  have h := findRide_eq_some hwf.1 hr
  constructor
  · intro hs
    have hno : r.status ≠ RideStatus.OPEN := by
      rcases hs with h' | h' <;> simp [h']
    have herr : cancelRide r.id r.riderId db =
        .error ⟨400, "Only open rides can be cancelled"⟩ := by
      unfold cancelRide
      rw [h]
      simp [hno]
    exact ⟨herr, by simp only [applyOp, stepOp, herr]⟩
  · intro hs
    have hnm : r.status ≠ RideStatus.MATCHED := by simp [hs]
    have herr : completeRide r.id r.riderId db =
        .error ⟨400, "Only matched rides can be completed"⟩ := by
      unfold completeRide
      rw [h]
      simp [hnm]
    exact ⟨herr, by simp only [applyOp, stepOp, herr]⟩

/-- Witness for C9 at the MATCHED fixture ride. -/
theorem cancel_non_open_and_complete_open_fail_witness :
    ((exRideM.status = RideStatus.MATCHED ∨ exRideM.status = RideStatus.COMPLETED) →
      cancelRide exRideM.id exRideM.riderId exDBMatched =
        .error ⟨400, "Only open rides can be cancelled"⟩ ∧
      applyOp exDBMatched (Op.cancelRide exRideM.id exRideM.riderId) = exDBMatched) ∧
    (exRideM.status = RideStatus.OPEN →
      completeRide exRideM.id exRideM.riderId exDBMatched =
        .error ⟨400, "Only matched rides can be completed"⟩ ∧
      applyOp exDBMatched (Op.completeRide exRideM.id exRideM.riderId) = exDBMatched) :=
  cancel_non_open_and_complete_open_fail exDBMatched exRideM (by decide) (by decide)

/-- Example ride 1 auto-completed by the cron while never matched. -/
def exRideC : Ride := { exRide with status := RideStatus.COMPLETED }

/-- Example store in which the cron completed ride 1 while requests 2 and 3
were still PENDING. -/
def exDBCompleted : DB :=
  { users := [exUser], rides := [exRideC], requests := [exQ1, exQ2], nextId := 4 }

/-- C10: `rejectRequest` never reads the parent ride's status — for any
well-formed store, any PENDING request `q` and its parent ride `r` (of any
status, MATCHED and COMPLETED included), the call by `r`'s rider succeeds
and returns the store in which exactly `q`'s status became REJECTED. -/
theorem reject_ignores_ride_status (db : DB) (q : RideRequest) (r : Ride)
    (hwf : WF db) (hq : q ∈ db.requests)
    (hqs : q.status = RideRequestStatus.PENDING) (hr : r ∈ db.rides)
    (hrid : r.id = q.rideId) :
    rejectRequest q.id r.riderId db = .ok
      { db with requests := db.requests.map (fun p =>
          if p.id = q.id then { p with status := RideRequestStatus.REJECTED }
          else p) } := by
  have h1 : findRequest db q.id = some q := findRequest_eq_some hwf.2.1 hq
  have h2 : findRide db q.rideId = some r := by
    have h := findRide_eq_some hwf.1 hr
    rwa [hrid] at h
  unfold rejectRequest
  rw [h1]
  simp [h2, hqs]

/-- Witness for C10 on the fixture store whose ride 1 was auto-completed
while request 2 stayed PENDING: the rider still rejects request 2. -/
theorem reject_ignores_ride_status_witness :
    rejectRequest 2 10 exDBCompleted = .ok
      { exDBCompleted with requests := exDBCompleted.requests.map (fun p =>
          if p.id = 2 then { p with status := RideRequestStatus.REJECTED }
          else p) } :=
  reject_ignores_ride_status exDBCompleted exQ1 exRideC (by decide) (by decide)
    (by decide) (by decide) (by decide)

/-- C8: while a request row for `(rideId, passengerId)` exists, a second
`createRequest` for the pair fails with Conflict (409) and inserts nothing;
once `cancelRequest` hard-deletes that row, a new `createRequest` for the
same pair on the still-OPEN ride succeeds and inserts a fresh PENDING
row. -/
theorem duplicate_request_conflict_then_cancel_frees_slot (db : DB)
    (q : RideRequest) (r : Ride) (note note2 : Option String) (hwf : WF db)
    (hq : q ∈ db.requests) (hqs : q.status = RideRequestStatus.PENDING)
    (hr : r ∈ db.rides) (hrid : r.id = q.rideId) (hrs : r.status = RideStatus.OPEN)
    (hnotown : r.riderId ≠ q.passengerId) :
    createRequest q.rideId q.passengerId note db =
      .error ⟨409, "You have already requested this ride"⟩ ∧
    applyOp db (Op.createRequest q.rideId q.passengerId note) = db ∧
    ∃ db2, cancelRequest q.id q.passengerId db = .ok db2 ∧
      db2.requests = db.requests.filter (fun p => decide (p.id ≠ q.id)) ∧
      createRequest q.rideId q.passengerId note2 db2 = .ok
        { db2 with
          requests := db2.requests ++ [{
            id := db2.nextId
            rideId := q.rideId
            passengerId := q.passengerId
            note := note2
            status := RideRequestStatus.PENDING }]
          nextId := db2.nextId + 1 } := by
  have hfr : findRide db q.rideId = some r := by
    have h := findRide_eq_some hwf.1 hr
    rwa [hrid] at h
  have hp : findRequestByPair db q.rideId q.passengerId = some q :=
    findRequestByPair_eq_some hwf.2.2 hq
  have hconf : createRequest q.rideId q.passengerId note db =
      .error ⟨409, "You have already requested this ride"⟩ := by
    unfold createRequest
    rw [hfr]
    simp [hrs, hnotown, hp]
  refine ⟨hconf, by simp only [applyOp, stepOp, hconf], ?_⟩
  have hcan : cancelRequest q.id q.passengerId db = .ok
      { db with requests := db.requests.filter (fun p => decide (p.id ≠ q.id)) } := by
    unfold cancelRequest
    rw [findRequest_eq_some hwf.2.1 hq]
    simp [hqs]
  refine ⟨_, hcan, rfl, ?_⟩
  have hfr2 : findRide
      { db with requests := db.requests.filter (fun p => decide (p.id ≠ q.id)) }
      q.rideId = some r := hfr
  have hnone : findRequestByPair
      { db with requests := db.requests.filter (fun p => decide (p.id ≠ q.id)) }
      q.rideId q.passengerId = none := by
    unfold findRequestByPair
    rw [List.find?_eq_none]
    intro x hx hpair
    have hx' := List.mem_filter.mp hx
    have hxq : x = q := by
      have hpair' := of_decide_eq_true hpair
      refine List.inj_on_of_nodup_map hwf.2.2 hx'.1 hq ?_
      rw [hpair'.1, hpair'.2]
    have hid := of_decide_eq_true hx'.2
    exact hid (by rw [hxq])
  unfold createRequest
  rw [hfr2]
  simp only [ne_eq, decide_not] at hnone
  simp [hrs, hnotown, hnone]

/-- Witness for C8 at the fixture store: passenger 20's duplicate request
on ride 1 conflicts; after cancelling request 2, a new request
succeeds. -/
theorem duplicate_request_conflict_witness :
    createRequest exQ1.rideId exQ1.passengerId none exDB =
      .error ⟨409, "You have already requested this ride"⟩ ∧
    applyOp exDB (Op.createRequest exQ1.rideId exQ1.passengerId none) = exDB ∧
    ∃ db2, cancelRequest exQ1.id exQ1.passengerId exDB = .ok db2 ∧
      db2.requests = exDB.requests.filter (fun p => decide (p.id ≠ exQ1.id)) ∧
      createRequest exQ1.rideId exQ1.passengerId (some "again") db2 = .ok
        { db2 with
          requests := db2.requests ++ [{
            id := db2.nextId
            rideId := exQ1.rideId
            passengerId := exQ1.passengerId
            note := some "again"
            status := RideRequestStatus.PENDING }]
          nextId := db2.nextId + 1 } :=
  duplicate_request_conflict_then_cancel_frees_slot exDB exQ1 exRide none
    (some "again") (by decide) (by decide) (by decide) (by decide) (by decide)
    (by decide) (by decide)

/-- Every member of an insertion step was the inserted ride or a member of
the original list. -/
theorem mem_of_mem_insertByDeparture {r a : Ride} :
    ∀ {l : List Ride}, a ∈ insertByDeparture r l → a = r ∨ a ∈ l := by
  intro l
  induction l with
  | nil =>
    intro h
    rcases List.mem_singleton.mp h with rfl
    exact Or.inl rfl
  | cons x xs ih =>
    intro h
    unfold insertByDeparture at h
    by_cases hc : r.departureTime ≤ x.departureTime
    · rw [if_pos hc] at h
      rcases List.mem_cons.mp h with rfl | h2
      · exact Or.inl rfl
      · exact Or.inr h2
    · rw [if_neg hc] at h
      rcases List.mem_cons.mp h with rfl | h2
      · exact Or.inr (List.mem_cons_self _ _)
      · rcases ih h2 with h3 | h3
        · exact Or.inl h3
        · exact Or.inr (List.mem_cons_of_mem _ h3)

/-- Every member of the departure-sorted list is a member of the input. -/
theorem mem_of_mem_sortByDeparture {a : Ride} :
    ∀ {l : List Ride}, a ∈ sortByDeparture l → a ∈ l := by
  intro l
  induction l with
  | nil => intro h; cases h
  | cons x xs ih =>
    intro h
    rcases mem_of_mem_insertByDeparture h with rfl | h2
    · exact List.mem_cons_self _ _
    · exact List.mem_cons_of_mem _ (ih h2)

/-- C6: whenever `getRides` is called with both coordinates of the
proximity filter, every ride of the returned page has a start location
within 2000 m of the supplied point under the geodesic metric. -/
theorem proximity_filtered_rides_within_radius
    (geoDist : Location → Int × Int → Nat) (q : GetRidesQuery)
    (userId : Option Nat) (db : DB) (lat lng : Int) (r : Ride) (hwf : WF db)
    (hlat : q.lat = some lat) (hlng : q.lng = some lng)
    (hr : r ∈ (getRides geoDist q userId db).1) :
    geoDist r.startLocation (lat, lng) ≤ 2000 := by
  simp only [getRides] at hr
  have h1 : r ∈ sortByDeparture
      (db.rides.filter (rideMatchesQuery geoDist q userId db)) :=
    List.mem_of_mem_drop (List.mem_of_mem_take hr)
  have h2 := List.mem_filter.mp (mem_of_mem_sortByDeparture h1)
  have hpred := h2.2
  unfold rideMatchesQuery at hpred
  rw [hlat, hlng] at hpred
  simp only [Bool.and_eq_true, decide_eq_true_eq] at hpred
  have hgeo : r.id ∈ geoRideIds geoDist lat lng db := hpred.1.1.1.2
  unfold geoRideIds at hgeo
  obtain ⟨s, hsf, hsid⟩ := List.mem_map.mp hgeo
  have hs := List.mem_filter.mp hsf
  have hsr : s = r := List.inj_on_of_nodup_map hwf.1 hs.1 h2.1 hsid
  have hdist := of_decide_eq_true hs.2
  rwa [hsr] at hdist

/-- Example proximity query centred on the fixture ride's start point. -/
def exQuery : GetRidesQuery :=
  { status := none, lat := some 185200, lng := some 738500,
    departureFrom := none, departureTo := none, limit := none, offset := none }

/-- A concrete stand-in metric for the witness: taxicab distance on the
fixed-point coordinates. -/
def exDist (l : Location) (p : Int × Int) : Nat :=
  (l.lat - p.1).natAbs + (l.lng - p.2).natAbs

/-- Witness for C6: with the taxicab stand-in metric and the fixture store,
the ride returned by the proximity query is within the 2000 m radius. -/
theorem proximity_filtered_rides_within_radius_witness :
    exDist exRide.startLocation (185200, 738500) ≤ 2000 :=
  proximity_filtered_rides_within_radius exDist exQuery none exDB 185200 738500
    exRide (by decide) (by decide) (by decide) (by decide)

/-! ## Shape of each operation's effect on the Ride table

For the reachable-state invariant each operation either throws (keeping the
store) or rewrites the Ride table in one of a few benign shapes; these
lemmas record just the facts the invariant proofs consume. -/

/-- The cron's per-ride update keeps the id. -/
theorem sweepRide_id (now : Int) (r : Ride) : (sweepRide now r).id = r.id := by
  unfold sweepRide
  split <;> rfl

/-- The cron's per-ride update keeps the passenger. -/
theorem sweepRide_passengerId (now : Int) (r : Ride) :
    (sweepRide now r).passengerId = r.passengerId := by
  unfold sweepRide
  split <;> rfl

/-- A ride the cron's update leaves OPEN was returned unchanged. -/
theorem sweepRide_of_open {now : Int} {r : Ride}
    (h : (sweepRide now r).status = RideStatus.OPEN) : sweepRide now r = r := by
  unfold sweepRide at h ⊢
  by_cases hc : r.departureTime ≤ now ∧ r.status ≠ RideStatus.COMPLETED
  · rw [if_pos hc] at h
    simp at h
  · rw [if_neg hc]

/-- A ride the cron's update leaves MATCHED was returned unchanged. -/
theorem sweepRide_of_matched {now : Int} {r : Ride}
    (h : (sweepRide now r).status = RideStatus.MATCHED) : sweepRide now r = r := by
  unfold sweepRide at h ⊢
  by_cases hc : r.departureTime ≤ now ∧ r.status ≠ RideStatus.COMPLETED
  · rw [if_pos hc] at h
    simp at h
  · rw [if_neg hc]

/-- `createRide` either throws or appends one fresh OPEN ride without a
passenger. -/
theorem applyOp_createRide (db : DB) (a : Nat) (sl el : Location) (dep : Int)
    (note : Option String) :
    applyOp db (Op.createRide a sl el dep note) = db ∨
    applyOp db (Op.createRide a sl el dep note) =
      { db with
        rides := db.rides ++ [{
          id := db.nextId
          riderId := a
          passengerId := none
          startLocation := sl
          endLocation := el
          departureTime := dep
          note := note
          status := RideStatus.OPEN }]
        nextId := db.nextId + 1 } := by
  simp only [applyOp, stepOp, createRide]
  cases hfu : findUser db a with
  | none => left; rfl
  | some u =>
    by_cases hv : vehicleMissing u.vehicleNumber = true
    · left; simp [hv]
    · right; simp [hv]

/-- `createRequest` never touches the Ride or User tables and never lowers
the id counter. -/
theorem applyOp_createRequest (db : DB) (rid pid : Nat) (note : Option String) :
    (applyOp db (Op.createRequest rid pid note)).rides = db.rides ∧
    (applyOp db (Op.createRequest rid pid note)).users = db.users ∧
    db.nextId ≤ (applyOp db (Op.createRequest rid pid note)).nextId := by
  simp only [applyOp, stepOp, createRequest]
  cases hfr : findRide db rid with
  | none => simp
  | some ride =>
    by_cases h1 : ride.status ≠ RideStatus.OPEN
    · simp [h1]
    · by_cases h2 : ride.riderId = pid
      · simp [h1, h2]
      · cases hp : findRequestByPair db rid pid with
        | some x => simp [h1, h2, hp]
        | none => simp [h1, h2, hp]

/-- `acceptRequest` either throws or rewrites the Ride table by matching
one ride id with some passenger, keeping everything else. -/
theorem applyOp_accept (db : DB) (qid rid : Nat) :
    applyOp db (Op.acceptRequest qid rid) = db ∨
    ∃ key pid,
      (applyOp db (Op.acceptRequest qid rid)).rides = db.rides.map (fun r =>
        if r.id = key then
          { r with status := RideStatus.MATCHED, passengerId := some pid }
        else r) ∧
      (applyOp db (Op.acceptRequest qid rid)).nextId = db.nextId ∧
      (applyOp db (Op.acceptRequest qid rid)).users = db.users := by
  simp only [applyOp, stepOp, acceptRequest]
  cases hpre : acceptPrecheck qid rid db with
  | error e => left; simp [Except.map]
  | ok request =>
    right
    exact ⟨request.rideId, request.passengerId, by simp [Except.map, acceptCommit],
      by simp [Except.map, acceptCommit], by simp [Except.map, acceptCommit]⟩

/-- `rejectRequest` never touches the Ride or User tables or the id
counter. -/
theorem applyOp_reject (db : DB) (qid rid : Nat) :
    (applyOp db (Op.rejectRequest qid rid)).rides = db.rides ∧
    (applyOp db (Op.rejectRequest qid rid)).users = db.users ∧
    (applyOp db (Op.rejectRequest qid rid)).nextId = db.nextId := by
  simp only [applyOp, stepOp, rejectRequest]
  cases hfq : findRequest db qid with
  | none => simp
  | some request =>
    cases hfr : findRide db request.rideId with
    | none => simp [hfr]
    | some ride =>
      by_cases h1 : ride.riderId ≠ rid
      · simp [hfr, h1]
      · by_cases h2 : request.status ≠ RideRequestStatus.PENDING
        · simp [hfr, h1, h2]
        · simp [hfr, h1, h2]

/-- `cancelRequest` never touches the Ride or User tables or the id
counter. -/
theorem applyOp_cancelRequest (db : DB) (qid pid : Nat) :
    (applyOp db (Op.cancelRequest qid pid)).rides = db.rides ∧
    (applyOp db (Op.cancelRequest qid pid)).users = db.users ∧
    (applyOp db (Op.cancelRequest qid pid)).nextId = db.nextId := by
  simp only [applyOp, stepOp, cancelRequest]
  cases hfq : findRequest db qid with
  | none => simp
  | some request =>
    by_cases h1 : request.passengerId ≠ pid
    · simp [h1]
    · by_cases h2 : request.status ≠ RideRequestStatus.PENDING
      · simp [h1, h2]
      · simp [h1, h2]

/-- `completeRide` either throws or completes one ride that `findRide`
proves was MATCHED, keeping every other field and table. -/
theorem applyOp_complete (db : DB) (rid uid : Nat) :
    applyOp db (Op.completeRide rid uid) = db ∨
    ∃ ride, findRide db rid = some ride ∧ ride.status = RideStatus.MATCHED ∧
      applyOp db (Op.completeRide rid uid) =
        { db with rides := db.rides.map (fun r =>
            if r.id = rid then { r with status := RideStatus.COMPLETED } else r) } := by
  simp only [applyOp, stepOp, completeRide]
  cases hfr : findRide db rid with
  | none => left; rfl
  | some ride =>
    by_cases h1 : ride.riderId ≠ uid
    · left; simp [h1]
    · by_cases h2 : ride.status ≠ RideStatus.MATCHED
      · left; simp [h1, h2]
      · right
        exact ⟨ride, rfl, not_not.mp h2, by simp [h1, h2]⟩

/-- `cancelRide` either throws or deletes one ride id together with its
requests. -/
theorem applyOp_cancelRide (db : DB) (rid uid : Nat) :
    applyOp db (Op.cancelRide rid uid) = db ∨
    applyOp db (Op.cancelRide rid uid) =
      { db with
        rides := db.rides.filter (fun r => decide (r.id ≠ rid))
        requests := db.requests.filter (fun p => decide (p.rideId ≠ rid)) } := by
  simp only [applyOp, stepOp, cancelRide]
  cases hfr : findRide db rid with
  | none => left; rfl
  | some ride =>
    by_cases h1 : ride.riderId ≠ uid
    · left; simp [h1]
    · by_cases h2 : ride.status ≠ RideStatus.OPEN
      · left; simp [h1, h2]
      · right; simp [h1, h2]

/-- A cron tick never throws. -/
theorem applyOp_sweep (db : DB) (now : Int) :
    applyOp db (Op.sweep now) = rideCompletionSweep now db := rfl

/-- The state invariant of the Ride table that every operation preserves:
an OPEN ride has no passenger, a MATCHED ride has one, every ride id was
drawn from the id counter, and ids are unique. -/
def RideInv (db : DB) : Prop :=
  (∀ r ∈ db.rides, r.status = RideStatus.OPEN → r.passengerId = none) ∧
  (∀ r ∈ db.rides, r.status = RideStatus.MATCHED → r.passengerId.isSome = true) ∧
  (∀ r ∈ db.rides, r.id < db.nextId) ∧
  (db.rides.map Ride.id).Nodup

/-- The invariant transports along an id- and passenger-preserving rewrite
of the Ride table that moves no ride into OPEN or MATCHED from elsewhere. -/
theorem rideInv_map (db : DB) (g : Ride → Ride)
    (hid : ∀ r, (g r).id = r.id)
    (hopen : ∀ r, (g r).status = RideStatus.OPEN →
      (g r).passengerId = r.passengerId ∧ r.status = RideStatus.OPEN)
    (hmatched : ∀ r, (g r).status = RideStatus.MATCHED →
      (g r).passengerId.isSome = true ∨
      ((g r).passengerId = r.passengerId ∧ r.status = RideStatus.MATCHED))
    (h : RideInv db) :
    RideInv { db with rides := db.rides.map g } := by
  obtain ⟨h1, h2, h3, h4⟩ := h
  refine ⟨?_, ?_, ?_, ?_⟩
  · intro r' hm hst
    obtain ⟨r0, hr0, rfl⟩ := List.mem_map.mp hm
    obtain ⟨hp, hs⟩ := hopen r0 hst
    rw [hp]
    exact h1 r0 hr0 hs
  · intro r' hm hst
    obtain ⟨r0, hr0, rfl⟩ := List.mem_map.mp hm
    rcases hmatched r0 hst with hs | ⟨hp, hs⟩
    · exact hs
    · rw [hp]
      exact h2 r0 hr0 hs
  · intro r' hm
    obtain ⟨r0, hr0, rfl⟩ := List.mem_map.mp hm
    rw [hid]
    exact h3 r0 hr0
  · rw [List.map_map, show Ride.id ∘ g = Ride.id from funext hid]
    exact h4

/-- Every operation preserves the Ride-table invariant. -/
theorem rideInv_applyOp (db : DB) (op : Op) (h : RideInv db) :
    RideInv (applyOp db op) := by
  cases op with
  | createRide a sl el dep note =>
    rcases applyOp_createRide db a sl el dep note with he | he
    · rw [he]; exact h
    · rw [he]
      obtain ⟨h1, h2, h3, h4⟩ := h
      refine ⟨?_, ?_, ?_, ?_⟩
      · intro r hm hst
        rcases List.mem_append.mp hm with hm' | hm'
        · exact h1 r hm' hst
        · rw [List.mem_singleton.mp hm']
      · intro r hm hst
        rcases List.mem_append.mp hm with hm' | hm'
        · exact h2 r hm' hst
        · rw [List.mem_singleton.mp hm'] at hst
          cases hst
      · intro r hm
        rcases List.mem_append.mp hm with hm' | hm'
        · exact Nat.lt_succ_of_lt (h3 r hm')
        · rw [List.mem_singleton.mp hm']
          exact Nat.lt_succ_self _
      · rw [List.map_append]
        refine List.Nodup.append h4 (by simp) ?_
        intro x hx hy
        rw [List.map_singleton, List.mem_singleton] at hy
        subst hy
        obtain ⟨r0, hr0, hrid⟩ := List.mem_map.mp hx
        exact absurd (hrid ▸ h3 r0 hr0) (lt_irrefl _)
  | createRequest rid pid note =>
    obtain ⟨hrides, husers, hnext⟩ := applyOp_createRequest db rid pid note
    obtain ⟨h1, h2, h3, h4⟩ := h
    refine ⟨?_, ?_, ?_, ?_⟩ <;> rw [hrides]
    · exact h1
    · exact h2
    · exact fun r hm => lt_of_lt_of_le (h3 r hm) hnext
    · exact h4
  | acceptRequest qid rid =>
    rcases applyOp_accept db qid rid with he | ⟨key, pid, hrides, hnext, husers⟩
    · rw [he]; exact h
    · have hinv := rideInv_map db
        (fun r => if r.id = key then
          { r with status := RideStatus.MATCHED, passengerId := some pid }
        else r)
        (accept_ride_update_id key pid)
        (fun r hst => by
          by_cases hk : r.id = key
          · simp [hk] at hst
          · simp only [if_neg hk] at hst ⊢
            exact ⟨by trivial, hst⟩)
        (fun r hst => by
          by_cases hk : r.id = key
          · left; simp [hk]
          · right
            simp only [if_neg hk] at hst ⊢
            exact ⟨by trivial, hst⟩)
        h
      obtain ⟨h1, h2, h3, h4⟩ := hinv
      exact ⟨by rw [hrides]; exact h1, by rw [hrides]; exact h2,
        by rw [hrides, hnext]; exact h3, by rw [hrides]; exact h4⟩
  | rejectRequest qid rid =>
    obtain ⟨hrides, husers, hnext⟩ := applyOp_reject db qid rid
    obtain ⟨h1, h2, h3, h4⟩ := h
    exact ⟨by rw [hrides]; exact h1, by rw [hrides]; exact h2,
      by rw [hrides, hnext]; exact h3, by rw [hrides]; exact h4⟩
  | cancelRequest qid pid =>
    obtain ⟨hrides, husers, hnext⟩ := applyOp_cancelRequest db qid pid
    obtain ⟨h1, h2, h3, h4⟩ := h
    exact ⟨by rw [hrides]; exact h1, by rw [hrides]; exact h2,
      by rw [hrides, hnext]; exact h3, by rw [hrides]; exact h4⟩
  | completeRide rid uid =>
    rcases applyOp_complete db rid uid with he | ⟨ride, hfr, hst, he⟩
    · rw [he]; exact h
    · rw [he]
      exact rideInv_map db _
        (fun r => by by_cases hk : r.id = rid <;> simp [hk])
        (fun r hs => by
          by_cases hk : r.id = rid
          · simp [hk] at hs
          · simp only [if_neg hk] at hs ⊢
            exact ⟨by trivial, hs⟩)
        (fun r hs => by
          by_cases hk : r.id = rid
          · simp [hk] at hs
          · right
            simp only [if_neg hk] at hs ⊢
            exact ⟨by trivial, hs⟩)
        h
  | cancelRide rid uid =>
    rcases applyOp_cancelRide db rid uid with he | he
    · rw [he]; exact h
    · rw [he]
      obtain ⟨h1, h2, h3, h4⟩ := h
      refine ⟨?_, ?_, ?_, ?_⟩
      · exact fun r hm => h1 r (List.mem_of_mem_filter hm)
      · exact fun r hm => h2 r (List.mem_of_mem_filter hm)
      · exact fun r hm => h3 r (List.mem_of_mem_filter hm)
      · exact List.Nodup.sublist (List.Sublist.map Ride.id (List.filter_sublist _)) h4
  | sweep now =>
    rw [applyOp_sweep]
    exact rideInv_map db (sweepRide now)
      (sweepRide_id now)
      (fun r hs => by
        have he := sweepRide_of_open hs
        rw [he] at hs
        rw [he]
        exact ⟨rfl, hs⟩)
      (fun r hs => by
        right
        have he := sweepRide_of_matched hs
        rw [he] at hs
        rw [he]
        exact ⟨rfl, hs⟩)
      h

/-- The invariant holds along any run. -/
theorem rideInv_run : ∀ (ops : List Op) (db : DB), RideInv db → RideInv (run db ops)
  | [], _, h => h
  | op :: t, db, h => rideInv_run t (applyOp db op) (rideInv_applyOp db op h)

/-- The deployment store satisfies the invariant. -/
theorem rideInv_initDB (users : List User) : RideInv (initDB users) := by
  refine ⟨?_, ?_, ?_, ?_⟩ <;> simp [initDB]

/-- No operation lowers the id counter. -/
theorem applyOp_nextId_le (db : DB) (op : Op) :
    db.nextId ≤ (applyOp db op).nextId := by
  cases op with
  | createRide a sl el dep note =>
    rcases applyOp_createRide db a sl el dep note with he | he
    · exact le_of_eq (by rw [he])
    · calc db.nextId ≤ db.nextId + 1 := Nat.le_succ _
        _ = (applyOp db (Op.createRide a sl el dep note)).nextId := by rw [he]
  | createRequest rid pid note => exact (applyOp_createRequest db rid pid note).2.2
  | acceptRequest qid rid =>
    rcases applyOp_accept db qid rid with he | ⟨_, _, _, hn, _⟩
    · exact le_of_eq (by rw [he])
    · exact le_of_eq hn.symm
  | rejectRequest qid rid => exact le_of_eq (applyOp_reject db qid rid).2.2.symm
  | cancelRequest qid pid => exact le_of_eq (applyOp_cancelRequest db qid pid).2.2.symm
  | completeRide rid uid =>
    rcases applyOp_complete db rid uid with he | ⟨_, _, _, he⟩ <;>
      exact le_of_eq (by rw [he])
  | cancelRide rid uid =>
    rcases applyOp_cancelRide db rid uid with he | he <;>
      exact le_of_eq (by rw [he])
  | sweep now => exact le_refl _

/-- A run never lowers the id counter. -/
theorem run_nextId_le : ∀ (ops : List Op) (db : DB), db.nextId ≤ (run db ops).nextId
  | [], _ => le_refl _
  | op :: t, db => le_trans (applyOp_nextId_le db op) (run_nextId_le t (applyOp db op))

/-- Runs compose over history concatenation. -/
theorem run_append_eq (db : DB) (l₁ l₂ : List Op) :
    run db (l₁ ++ l₂) = run (run db l₁) l₂ := by
  simp [run, List.foldl_append]

/-- A ride once matched inside a history stays ever-matched in any longer
history. -/
theorem everMatched_extend {users : List User} {ops : List Op} {rideId : Nat}
    (l : List Op) (h : EverMatched users ops rideId) :
    EverMatched users (ops ++ l) rideId := by
  obtain ⟨l₁, l₂, rfl, hm⟩ := h
  exact ⟨l₁, l₂ ++ l, by rw [List.append_assoc], hm⟩

/-- A ride matched in the current state is ever-matched. -/
theorem everMatched_now {users : List User} {ops : List Op} {rideId : Nat}
    (h : MatchedAt users ops rideId) : EverMatched users ops rideId :=
  ⟨ops, [], by simp, h⟩

/-- Splitting ever-matched over the last operation of a history. -/
theorem everMatched_snoc {users : List User} {ops : List Op} {op : Op}
    {rideId : Nat} (h : EverMatched users (ops ++ [op]) rideId) :
    EverMatched users ops rideId ∨ MatchedAt users (ops ++ [op]) rideId := by
  obtain ⟨l₁, l₂, heq, hm⟩ := h
  rcases List.eq_nil_or_concat' l₂ with rfl | ⟨l₂', x, rfl⟩
  · right
    rw [List.append_nil] at heq
    rw [heq]
    exact hm
  · left
    rw [← List.append_assoc] at heq
    obtain ⟨h1, _⟩ := List.append_inj' heq rfl
    exact ⟨l₁, l₂', h1, hm⟩

/-- An ever-matched ride id was issued by the counter, hence is below its
current value. -/
theorem everMatched_lt_nextId {users : List User} {ops : List Op} {rideId : Nat}
    (h : EverMatched users ops rideId) :
    rideId < (run (initDB users) ops).nextId := by
  obtain ⟨l₁, l₂, rfl, r, hr, hrid, _⟩ := h
  have inv := rideInv_run l₁ (initDB users) (rideInv_initDB users)
  have h1 : rideId < (run (initDB users) l₁).nextId := hrid ▸ inv.2.2.1 r hr
  rw [run_append_eq]
  exact lt_of_lt_of_le h1 (run_nextId_le l₂ (run (initDB users) l₁))

/-- Once a ride is ever-matched, any surviving row with its id keeps a
passenger: the passenger column is only ever written to a `some` value and
no operation clears it. -/
theorem everMatched_passenger (users : List User) :
    ∀ (ops : List Op) (rideId : Nat), EverMatched users ops rideId →
      ∀ r ∈ (run (initDB users) ops).rides, r.id = rideId →
        r.passengerId.isSome = true := by
  intro ops
  induction ops using List.reverseRecOn with
  | nil =>
    intro rideId h r hr hrid
    simp [run, initDB] at hr
  | append_singleton ops op ih =>
    intro rideId h r hr hrid
    have hrun : run (initDB users) (ops ++ [op]) =
        applyOp (run (initDB users) ops) op := by
      rw [run_append_eq]
      rfl
    rw [hrun] at hr
    have invS : RideInv (run (initDB users) ops) :=
      rideInv_run ops (initDB users) (rideInv_initDB users)
    rcases everMatched_snoc h with hEM | hNow
    · have hlt : rideId < (run (initDB users) ops).nextId :=
        everMatched_lt_nextId hEM
      cases op with
      | createRide a sl el dep note =>
        rcases applyOp_createRide (run (initDB users) ops) a sl el dep note
          with he | he
        · rw [he] at hr
          exact ih rideId hEM r hr hrid
        · rw [he] at hr
          rcases List.mem_append.mp hr with hm | hm
          · exact ih rideId hEM r hm hrid
          · rw [List.mem_singleton.mp hm] at hrid
            simp at hrid
            rw [← hrid] at hlt
            exact absurd hlt (lt_irrefl _)
      | createRequest rid pid note =>
        rw [(applyOp_createRequest (run (initDB users) ops) rid pid note).1] at hr
        exact ih rideId hEM r hr hrid
      | acceptRequest qid rid =>
        rcases applyOp_accept (run (initDB users) ops) qid rid
          with he | ⟨key, pid, hrides, _, _⟩
        · rw [he] at hr
          exact ih rideId hEM r hr hrid
        · rw [hrides] at hr
          obtain ⟨r0, hr0, rfl⟩ := List.mem_map.mp hr
          by_cases hk : r0.id = key
          · simp [hk]
          · simp only [if_neg hk] at hrid ⊢
            exact ih rideId hEM r0 hr0 hrid
      | rejectRequest qid rid =>
        rw [(applyOp_reject (run (initDB users) ops) qid rid).1] at hr
        exact ih rideId hEM r hr hrid
      | cancelRequest qid pid =>
        rw [(applyOp_cancelRequest (run (initDB users) ops) qid pid).1] at hr
        exact ih rideId hEM r hr hrid
      | completeRide rid uid =>
        rcases applyOp_complete (run (initDB users) ops) rid uid
          with he | ⟨ride, hfr, hst, he⟩
        · rw [he] at hr
          exact ih rideId hEM r hr hrid
        · rw [he] at hr
          obtain ⟨r0, hr0, rfl⟩ := List.mem_map.mp hr
          by_cases hk : r0.id = rid
          · simp only [if_pos hk] at hrid ⊢
            exact ih rideId hEM r0 hr0 hrid
          · simp only [if_neg hk] at hrid ⊢
            exact ih rideId hEM r0 hr0 hrid
      | cancelRide rid uid =>
        rcases applyOp_cancelRide (run (initDB users) ops) rid uid with he | he
        · rw [he] at hr
          exact ih rideId hEM r hr hrid
        · rw [he] at hr
          exact ih rideId hEM r (List.mem_of_mem_filter hr) hrid
      | sweep now =>
        rw [applyOp_sweep] at hr
        obtain ⟨r0, hr0, rfl⟩ := List.mem_map.mp hr
        rw [sweepRide_id] at hrid
        rw [sweepRide_passengerId]
        exact ih rideId hEM r0 hr0 hrid
    · obtain ⟨r', hr', hrid', hst'⟩ := hNow
      rw [hrun] at hr'
      have invS' : RideInv (applyOp (run (initDB users) ops) op) :=
        rideInv_applyOp (run (initDB users) ops) op invS
      have hrr : r = r' :=
        List.inj_on_of_nodup_map invS'.2.2.2 hr hr' (by rw [hrid, hrid'])
      rw [hrr]
      exact invS'.2.1 r' hr' hst'

/-- A COMPLETED ride that carries a passenger was MATCHED at some point of
its history: `completeRide` demands MATCHED, and the cron only completes a
passenger-carrying ride out of MATCHED (an OPEN ride has no passenger). -/
theorem completed_everMatched (users : List User) :
    ∀ (ops : List Op) (r : Ride), r ∈ (run (initDB users) ops).rides →
      r.status = RideStatus.COMPLETED → r.passengerId.isSome = true →
      EverMatched users ops r.id := by
  intro ops
  induction ops using List.reverseRecOn with
  | nil =>
    intro r hr
    simp [run, initDB] at hr
  | append_singleton ops op ih =>
    intro r hr hst hsome
    have hrun : run (initDB users) (ops ++ [op]) =
        applyOp (run (initDB users) ops) op := by
      rw [run_append_eq]
      rfl
    rw [hrun] at hr
    have invS : RideInv (run (initDB users) ops) :=
      rideInv_run ops (initDB users) (rideInv_initDB users)
    cases op with
    | createRide a sl el dep note =>
      rcases applyOp_createRide (run (initDB users) ops) a sl el dep note
        with he | he
      · rw [he] at hr
        exact everMatched_extend _ (ih r hr hst hsome)
      · rw [he] at hr
        rcases List.mem_append.mp hr with hm | hm
        · exact everMatched_extend _ (ih r hm hst hsome)
        · rw [List.mem_singleton.mp hm] at hst
          cases hst
    | createRequest rid pid note =>
      rw [(applyOp_createRequest (run (initDB users) ops) rid pid note).1] at hr
      exact everMatched_extend _ (ih r hr hst hsome)
    | acceptRequest qid rid =>
      rcases applyOp_accept (run (initDB users) ops) qid rid
        with he | ⟨key, pid, hrides, _, _⟩
      · rw [he] at hr
        exact everMatched_extend _ (ih r hr hst hsome)
      · rw [hrides] at hr
        obtain ⟨r0, hr0, rfl⟩ := List.mem_map.mp hr
        by_cases hk : r0.id = key
        · simp [hk] at hst
        · simp only [if_neg hk] at hst hsome ⊢
          exact everMatched_extend _ (ih r0 hr0 hst hsome)
    | rejectRequest qid rid =>
      rw [(applyOp_reject (run (initDB users) ops) qid rid).1] at hr
      exact everMatched_extend _ (ih r hr hst hsome)
    | cancelRequest qid pid =>
      rw [(applyOp_cancelRequest (run (initDB users) ops) qid pid).1] at hr
      exact everMatched_extend _ (ih r hr hst hsome)
    | completeRide rid uid =>
      rcases applyOp_complete (run (initDB users) ops) rid uid
        with he | ⟨ride, hfr, hstr, he⟩
      · rw [he] at hr
        exact everMatched_extend _ (ih r hr hst hsome)
      · rw [he] at hr
        obtain ⟨r0, hr0, rfl⟩ := List.mem_map.mp hr
        by_cases hk : r0.id = rid
        · have hmem : ride ∈ (run (initDB users) ops).rides := by
            unfold findRide at hfr
            exact List.mem_of_find?_eq_some hfr
          have hride_id : ride.id = rid := by
            unfold findRide at hfr
            have hpred := List.find?_some hfr
            exact of_decide_eq_true hpred
          refine ⟨ops, [Op.completeRide rid uid], rfl, ride, hmem, ?_, hstr⟩
          simp only [if_pos hk]
          rw [hride_id, hk]
        · simp only [if_neg hk] at hst hsome ⊢
          exact everMatched_extend _ (ih r0 hr0 hst hsome)
    | cancelRide rid uid =>
      rcases applyOp_cancelRide (run (initDB users) ops) rid uid with he | he
      · rw [he] at hr
        exact everMatched_extend _ (ih r hr hst hsome)
      · rw [he] at hr
        exact everMatched_extend _ (ih r (List.mem_of_mem_filter hr) hst hsome)
    | sweep now =>
      rw [applyOp_sweep] at hr
      obtain ⟨r0, hr0, rfl⟩ := List.mem_map.mp hr
      rw [sweepRide_passengerId] at hsome
      by_cases hc : r0.departureTime ≤ now ∧ r0.status ≠ RideStatus.COMPLETED
      · cases hst0 : r0.status with
        | OPEN =>
          have := invS.1 r0 hr0 hst0
          rw [this] at hsome
          cases hsome
        | MATCHED =>
          refine ⟨ops, [Op.sweep now], rfl, r0, hr0, ?_, hst0⟩
          rw [sweepRide_id]
        | COMPLETED => exact absurd hst0 hc.2
      · have he : sweepRide now r0 = r0 := by
          unfold sweepRide
          rw [if_neg hc]
        rw [he] at hst ⊢
        exact everMatched_extend _ (ih r0 hr0 hst hsome)

/-- C4: in every state reachable from a fresh deployment by any history of
core operations (ride and request calls and cron ticks, failed calls
included), a ride's passenger id is set exactly when the ride is MATCHED or
is COMPLETED having been MATCHED at some earlier point of the history; in
particular it is null while the ride is OPEN. -/
theorem passenger_iff_matched_or_completed_after_match (users : List User)
    (ops : List Op) (r : Ride) (hr : r ∈ (run (initDB users) ops).rides) :
    r.passengerId.isSome = true ↔
      (r.status = RideStatus.MATCHED ∨
       (r.status = RideStatus.COMPLETED ∧ EverMatched users ops r.id)) := by
  have inv := rideInv_run ops (initDB users) (rideInv_initDB users)
  constructor
  · intro hsome
    cases hst : r.status with
    | OPEN =>
      have hnone := inv.1 r hr hst
      rw [hnone] at hsome
      cases hsome
    | MATCHED => exact Or.inl rfl
    | COMPLETED =>
      exact Or.inr ⟨rfl, completed_everMatched users ops r hr hst hsome⟩
  · rintro (hm | ⟨hc, hev⟩)
    · exact inv.2.1 r hr hm
    · exact everMatched_passenger users ops r.id hev r hr rfl

/-- Witness history for C4: one ride created from a fresh deployment. -/
def exOps : List Op := [Op.createRide 10 exLoc exLoc 100 none]

/-- The ride the witness history creates (the counter starts at 0). -/
def exRideNew : Ride :=
  { id := 0, riderId := 10, passengerId := none, startLocation := exLoc,
    endLocation := exLoc, departureTime := 100, note := none,
    status := RideStatus.OPEN }

/-- Witness for C4: the freshly created OPEN ride is reachable and
satisfies the passenger-id equivalence (its passenger id is unset). -/
theorem passenger_iff_matched_witness :
    exRideNew ∈ (run (initDB [exUser]) exOps).rides ∧
    (exRideNew.passengerId.isSome = true ↔
      (exRideNew.status = RideStatus.MATCHED ∨
       (exRideNew.status = RideStatus.COMPLETED ∧
        EverMatched [exUser] exOps exRideNew.id))) :=
  ⟨by decide, passenger_iff_matched_or_completed_after_match [exUser] exOps
    exRideNew (by decide)⟩

end DigniRide
